import Mathlib

/-!
Verification of the Sentinel monitoring engine (Go sources under
`internal/checker`, `internal/alerter`, `internal/storage`).

The Go code is shallowly embedded:

* `CheckResponse`, `Check`, `CheckResult`, `Incident`, `AlertLog` mirror the
  structs in `internal/checker/http.go` and `internal/storage/models.go`
  (only the fields the engine reads are kept; timestamps are abstract
  integers).
* The storage interface is modelled as an in-memory `Store`: results are held
  newest-first (the SQL queries all order by `checked_at DESC`), incidents
  and the alert log as plain lists.  Each storage method of
  `internal/storage/sqlite.go` used by the engine becomes a pure function on
  `Store`.
* `DetermineStatus`, `ShouldAlert`, `ProcessResult`
  (`internal/checker/result.go`), `executeCheck`
  (`internal/checker/scheduler.go`), `Execute` (`internal/checker/http.go`)
  and `shouldSendAlert`, `logAlert`, `sendAlert`
  (`internal/alerter/manager.go`) are translated clause by clause.
  Effects on the store are explicit state passing; dispatched alerts become
  an event list; the fallible storage lookup used by the cooldown check
  becomes an `Except` parameter.
-/

/-- Mirrors `checker.CheckResponse` (internal/checker/http.go): HTTP status
code, elapsed milliseconds of the attempt, and a nullable error. -/
structure CheckResponse where
  statusCode : Int
  responseTimeMs : Int
  error : Option String
deriving DecidableEq, Repr

/-- Mirrors the fields of `storage.Check` the engine reads: id, expected
status, and the computed `Status` field the caller fills in. -/
structure Check where
  id : Int
  expectedStatus : Int
  status : String
deriving DecidableEq, Repr

/-- Mirrors `storage.CheckResult` (internal/storage/models.go). -/
structure CheckResult where
  checkId : Int
  status : String
  statusCode : Int
  responseTimeMs : Int
  errorMessage : String
  checkedAt : Int
deriving DecidableEq, Repr

/-- Mirrors `storage.Incident` (internal/storage/models.go); `endedAt = none`
is the SQL NULL `ended_at`, i.e. the incident is open. -/
structure Incident where
  id : Int
  checkId : Int
  startedAt : Int
  endedAt : Option Int
  durationSeconds : Int
  cause : String
deriving DecidableEq, Repr

/-- Mirrors `storage.AlertLog` (internal/storage/models.go). -/
structure AlertLog where
  incidentId : Int
  channel : String
  sentAt : Int
  success : Bool
  errorMessage : String
deriving DecidableEq, Repr

/-- `checker.DetermineStatus` (internal/checker/result.go lines 100-111). -/
def DetermineStatus (response : CheckResponse) (expectedStatus : Int) : String :=
  if response.error.isSome then "down"
  else
    let expected := if expectedStatus = 0 then 200 else expectedStatus
    if response.statusCode ≠ expected then "down" else "up"

/-- `CheckResponse.IsSuccess` (internal/checker/http.go lines 716-724). -/
def CheckResponse.IsSuccess (r : CheckResponse) (expectedStatus : Int) : Bool :=
  if r.error.isSome then false
  else
    let expected := if expectedStatus = 0 then 200 else expectedStatus
    r.statusCode = expected

lemma isSuccess_iff_up (r : CheckResponse) (e : Int) :
    r.IsSuccess e = true ↔ DetermineStatus r e = "up" := by
  unfold CheckResponse.IsSuccess DetermineStatus
  rcases r with ⟨code, ms, err⟩
  rcases err with _ | msg
  · simp only [Option.isSome_none, Bool.false_eq_true, if_false, ne_eq, ite_not,
      decide_eq_true_eq]
    split <;> simp_all
  · simp

lemma up_or_down (r : CheckResponse) (e : Int) :
    DetermineStatus r e = "up" ∨ DetermineStatus r e = "down" := by
  unfold DetermineStatus
  rcases r with ⟨code, ms, err⟩
  rcases err with _ | msg
  · simp only [Option.isSome_none, Bool.false_eq_true, if_false]
    split <;> simp_all <;> tauto
  · simp

/-- C5: the classifier yields `up` iff the response carries no error and its
status code equals the expected status, with expected status 0 replaced by
200; in every other case the verdict is `down`; `IsSuccess` (the
probe-attempt predicate) agrees with the classifier. -/
theorem claim_C5 (r : CheckResponse) (e : Int) :
    (DetermineStatus r e = "up" ↔
      (r.error = none ∧ r.statusCode = (if e = 0 then 200 else e))) ∧
    (DetermineStatus r e ≠ "up" → DetermineStatus r e = "down") ∧
    (r.IsSuccess e = true ↔ DetermineStatus r e = "up") := by
  refine ⟨?_, ?_, isSuccess_iff_up r e⟩
  · unfold DetermineStatus
    rcases r with ⟨code, ms, err⟩
    rcases err with _ | msg
    · simp only [Option.isSome_none, Bool.false_eq_true, if_false, ne_eq, ite_not]
      split <;> simp_all
    · simp
  · intro h
    rcases up_or_down r e with h' | h'
    · exact absurd h' h
    · exact h'

/-! ## The storage model

The engine talks to `storage.Storage` only through the methods embedded
below.  Results are kept newest-first, matching the `ORDER BY checked_at
DESC` in every result query of internal/storage (part_009): `SaveResult`
prepends, `GetLatestResult` is the head, `GetRecentResults n` the first `n`
entries for the check.  Incidents and the alert log are plain lists;
`CreateIncident` assigns the next fresh row id. -/

structure Store where
  results : List CheckResult
  incidents : List Incident
  nextIncidentId : Int
deriving DecidableEq, Repr

def emptyStore : Store := ⟨[], [], 1⟩

/-- The stored results for one check, newest first (`WHERE check_id = ?
ORDER BY checked_at DESC`). -/
def resultsFor (st : Store) (checkId : Int) : List CheckResult :=
  st.results.filter (fun r => r.checkId = checkId)

/-- `SQLiteStorage.SaveResult`: inserts one row, stamping `checked_at`. -/
def SaveResult (st : Store) (result : CheckResult) : Store :=
  { st with results := result :: st.results }

/-- `SQLiteStorage.GetLatestResult`: newest result for the check, `none`
when no row matches. -/
def GetLatestResult (st : Store) (checkId : Int) : Option CheckResult :=
  (resultsFor st checkId).head?

/-- `SQLiteStorage.GetRecentResults` = `GetResults(checkID, count, 0)`:
the `count` newest results for the check. -/
def GetRecentResults (st : Store) (checkId : Int) (count : Int) : List CheckResult :=
  (resultsFor st checkId).take count.toNat

/-- `SQLiteStorage.GetActiveIncident`: the row with `check_id = ?` and
`ended_at IS NULL`, `none` when no row matches. -/
def GetActiveIncident (st : Store) (checkId : Int) : Option Incident :=
  st.incidents.find? (fun i => i.checkId = checkId && i.endedAt.isNone)

/-- `SQLiteStorage.GetIncident`: look up an incident by row id. -/
def GetIncident (st : Store) (id : Int) : Option Incident :=
  st.incidents.find? (fun i => i.id = id)

/-- `SQLiteStorage.CreateIncident`: insert an open incident, returning the
stored row (the Go code writes the fresh id back into the struct). -/
def CreateIncident (st : Store) (checkId : Int) (startedAt : Int) (cause : String) :
    Store × Incident :=
  let inc : Incident :=
    { id := st.nextIncidentId, checkId := checkId, startedAt := startedAt,
      endedAt := none, durationSeconds := 0, cause := cause }
  ({ st with incidents := st.incidents ++ [inc],
             nextIncidentId := st.nextIncidentId + 1 }, inc)

/-- The row update performed by `SQLiteStorage.CloseIncident`:
`SET ended_at = ?, duration_seconds = ? WHERE id = ?`, the duration being
the whole seconds between `started_at` and `ended_at`. -/
def closeOne (id : Int) (endedAt : Int) (i : Incident) : Incident :=
  if i.id = id then
    { i with endedAt := some endedAt, durationSeconds := endedAt - i.startedAt }
  else i

/-- `SQLiteStorage.CloseIncident`. -/
def CloseIncident (st : Store) (id : Int) (endedAt : Int) : Store :=
  { st with incidents := st.incidents.map (closeOne id endedAt) }

/-- The incidents of one check that are still open (`ended_at IS NULL`). -/
def openIncidents (st : Store) (checkId : Int) : List Incident :=
  st.incidents.filter (fun i => i.checkId = checkId && i.endedAt.isNone)

/-- Invariant I1: every check has at most one open incident. -/
def AtMostOneOpen (st : Store) : Prop :=
  ∀ checkId, (openIncidents st checkId).length ≤ 1

/-! ## The state machine (internal/checker/result.go) -/

/-- `checker.ShouldAlert` (internal/checker/result.go lines 114-147):
replace a threshold below 1 by the default 2; fetch that many recent
results; refuse when fewer rows exist, when any of them is `up`, or when an
incident is already open. -/
def ShouldAlert (st : Store) (checkId : Int) (threshold : Int) : Bool :=
  let t := if threshold < 1 then 2 else threshold
  let results := GetRecentResults st checkId t
  if results.length < t.toNat then false
  else if results.any (fun r => r.status = "up") then false
  else (GetActiveIncident st checkId).isNone

/-- An alert handed to the `checker.Alerter` interface by `ProcessResult`:
either `SendDownAlert` with the created incident and the error text, or
`SendRecoveryAlert` with the re-read incident (which Go allows to be nil). -/
inductive AlertEvent where
  | down (incident : Incident) (errMsg : String)
  | recovery (incident : Option Incident)
deriving DecidableEq, Repr

/-- The `storage.CheckResult` built at the top of `ProcessResult`
(internal/checker/result.go lines 21-30). -/
def mkResult (check : Check) (response : CheckResponse) (status : String)
    (now : Int) : CheckResult :=
  { checkId := check.id, status := status, statusCode := response.statusCode,
    responseTimeMs := response.responseTimeMs,
    errorMessage := response.error.getD "", checkedAt := now }

/-- `checker.ProcessResult` (internal/checker/result.go lines 16-97).
Classify, save the result, then branch on the previous status carried in
`check.status`: first check (empty or `pending`) does nothing further;
up→down consults `ShouldAlert` and possibly creates an incident and emits a
down alert; down→up closes the active incident (when one exists), re-reads
it, and emits a recovery alert.  Store reads happen on the post-save store,
exactly as in the Go code. -/
def ProcessResult (st : Store) (check : Check) (response : CheckResponse)
    (consecutiveFailures : Int) (now : Int) : Store × List AlertEvent :=
  let status := DetermineStatus response check.expectedStatus
  let result := mkResult check response status now
  let st1 := SaveResult st result
  let previousStatus := check.status
  if previousStatus = "" ∨ previousStatus = "pending" then
    (st1, [])
  else if status = "down" ∧ previousStatus = "up" then
    if ShouldAlert st1 check.id consecutiveFailures then
      let created := CreateIncident st1 check.id now result.errorMessage
      (created.1, [AlertEvent.down created.2 result.errorMessage])
    else (st1, [])
  else if status = "up" ∧ previousStatus = "down" then
    match GetActiveIncident st1 check.id with
    | some inc =>
      let st2 := CloseIncident st1 inc.id now
      (st2, [AlertEvent.recovery (GetIncident st2 inc.id)])
    | none => (st1, [])
  else (st1, [])

/-- The status derivation in `Scheduler.executeCheck`
(internal/checker/scheduler.go lines 180-186): the status of the latest
stored result, `pending` when none exists. -/
def deriveStatus (st : Store) (checkId : Int) : String :=
  match GetLatestResult st checkId with
  | some r => r.status
  | none => "pending"

/-- `Scheduler.executeCheck` (internal/checker/scheduler.go lines 171-200),
minus the probe itself: the check is re-read, its `Status` field is
overwritten with the store-derived previous status, and the response is
threaded through `ProcessResult`. -/
def executeCheck (st : Store) (check : Check) (response : CheckResponse)
    (consecutiveFailures : Int) (now : Int) : Store × List AlertEvent :=
  ProcessResult st { check with status := deriveStatus st check.id }
    response consecutiveFailures now

/-- One probe outcome per tick, with its wall-clock stamp. -/
def runTrace (st : Store) (check : Check) (consecutiveFailures : Int) :
    List (CheckResponse × Int) → Store
  | [] => st
  | (response, now) :: rest =>
      runTrace (executeCheck st check response consecutiveFailures now).1
        check consecutiveFailures rest

/-! ## Basic facts about `ProcessResult` -/

lemma createIncident_results (st : Store) (cid startedAt : Int) (cause : String) :
    (CreateIncident st cid startedAt cause).1.results = st.results := rfl

lemma closeIncident_results (st : Store) (id endedAt : Int) :
    (CloseIncident st id endedAt).results = st.results := rfl

/-- Every call to `ProcessResult` persists exactly one result, built by
`mkResult`, and no branch touches the earlier results. -/
lemma processResult_results (st : Store) (check : Check) (response : CheckResponse)
    (cf now : Int) :
    (ProcessResult st check response cf now).1.results
      = mkResult check response (DetermineStatus response check.expectedStatus) now
          :: st.results := by
  unfold ProcessResult
  dsimp only
  split
  · rfl
  · split
    · split <;> rfl
    · split
      · split <;> rfl
      · rfl

lemma saveResult_incidents (st : Store) (r : CheckResult) :
    (SaveResult st r).incidents = st.incidents := rfl

/-- C6: when the previous observed status is `pending` or empty (no prior
verdict), processing any verdict only persists the result: the incident
table is untouched and no alert is dispatched. -/
theorem claim_C6 (st : Store) (check : Check) (response : CheckResponse)
    (cf now : Int) (h : check.status = "" ∨ check.status = "pending") :
    ProcessResult st check response cf now
      = (SaveResult st
          (mkResult check response (DetermineStatus response check.expectedStatus) now),
         []) ∧
    (ProcessResult st check response cf now).1.incidents = st.incidents ∧
    (ProcessResult st check response cf now).2 = [] := by
  have hbranch : ProcessResult st check response cf now
      = (SaveResult st
          (mkResult check response (DetermineStatus response check.expectedStatus) now),
         []) := by
    unfold ProcessResult
    dsimp only
    rw [if_pos h]
  exact ⟨hbranch, by rw [hbranch]; rfl, by rw [hbranch]⟩

theorem claim_C6_witness :
    ProcessResult emptyStore ⟨1, 200, "pending"⟩ ⟨0, 0, some "connection refused"⟩ 2 10
      = (SaveResult emptyStore
          (mkResult ⟨1, 200, "pending"⟩ ⟨0, 0, some "connection refused"⟩
            (DetermineStatus ⟨0, 0, some "connection refused"⟩ 200) 10),
         []) ∧
    (ProcessResult emptyStore ⟨1, 200, "pending"⟩ ⟨0, 0, some "connection refused"⟩ 2 10).1.incidents
      = emptyStore.incidents ∧
    (ProcessResult emptyStore ⟨1, 200, "pending"⟩ ⟨0, 0, some "connection refused"⟩ 2 10).2
      = [] :=
  claim_C6 emptyStore ⟨1, 200, "pending"⟩ ⟨0, 0, some "connection refused"⟩ 2 10
    (Or.inr rfl)

/-- C7: the previous observed status the engine feeds into the transition
selection is derived from the latest persisted result (`pending` when none
exists); the `Status` field cached on the check record passed in is
irrelevant: `executeCheck` behaves identically for every cached value. -/
theorem claim_C7 (st : Store) (check : Check) (response : CheckResponse)
    (cf now : Int) :
    (∀ s : String, executeCheck st { check with status := s } response cf now
        = executeCheck st check response cf now) ∧
    executeCheck st check response cf now
      = ProcessResult st { check with status := deriveStatus st check.id }
          response cf now ∧
    deriveStatus st check.id
      = (match GetLatestResult st check.id with
         | some r => r.status
         | none => "pending") := by
  exact ⟨fun s => rfl, rfl, rfl⟩

/-! ## C2: the alert-open gate -/

/-- C2: `ShouldAlert` returns true iff the store holds at least N results
for the endpoint, the N most-recent ones are all `down`, and no open
incident exists; N is the configured threshold, replaced by 2 when below 1.
The second conjunct is the debounce consequence: if one of the N most
recent results is `up`, the gate is closed.  The hypothesis restricts
attention to stores whose result rows carry the only two verdicts the
engine ever writes. -/
theorem claim_C2 (st : Store) (cid t : Int)
    (hwf : ∀ r ∈ st.results, r.status = "up" ∨ r.status = "down") :
    (ShouldAlert st cid t = true ↔
      ((if t < 1 then 2 else t).toNat ≤ (resultsFor st cid).length ∧
       (∀ r ∈ (resultsFor st cid).take (if t < 1 then 2 else t).toNat,
          r.status = "down") ∧
       GetActiveIncident st cid = none)) ∧
    ((∃ r ∈ GetRecentResults st cid (if t < 1 then 2 else t), r.status = "up") →
       ShouldAlert st cid t = false) := by
  set N := (if t < 1 then 2 else t).toNat with hN
  have hmemres : ∀ r ∈ (resultsFor st cid).take N, r ∈ st.results := by
    intro r hr
    exact (List.mem_filter.mp (List.mem_of_mem_take hr)).1
  have hany : (((resultsFor st cid).take N).any (fun r => r.status = "up") = false)
      ↔ ∀ r ∈ (resultsFor st cid).take N, r.status = "down" := by
    rw [Bool.eq_false_iff]
    constructor
    · intro h r hr
      rcases hwf r (hmemres r hr) with hu | hd
      · exact absurd (List.any_eq_true.mpr ⟨r, hr, by simp [hu]⟩) h
      · exact hd
    · intro h hc
      rcases List.any_eq_true.mp hc with ⟨r, hr, hup⟩
      have hd := h r hr
      have hu : r.status = "up" := by simpa using hup
      rw [hu] at hd
      exact absurd hd (by decide)
  have hlen : (¬ ((resultsFor st cid).take N).length < N)
      ↔ N ≤ (resultsFor st cid).length := by
    rw [List.length_take]
    omega
  have key : ShouldAlert st cid t = true ↔
      (¬ ((resultsFor st cid).take N).length < N ∧
       ((resultsFor st cid).take N).any (fun r => r.status = "up") = false ∧
       GetActiveIncident st cid = none) := by
    unfold ShouldAlert GetRecentResults
    dsimp only
    rw [← hN]
    constructor
    · intro h
      split at h
      · exact absurd h (by simp)
      · rename_i h1
        split at h
        · exact absurd h (by simp)
        · rename_i h2
          exact ⟨h1, by simpa using h2, Option.isNone_iff_eq_none.mp h⟩
    · rintro ⟨h1, h2, h3⟩
      rw [if_neg h1, if_neg (by simp [h2]), h3]
      rfl
  constructor
  · rw [key, hlen, hany]
  · rintro ⟨r, hr, hup⟩
    unfold GetRecentResults at hr
    rw [← hN] at hr
    rw [Bool.eq_false_iff]
    intro hSA
    have := (key.mp hSA).2.1
    rw [hany] at this
    have hd := this r hr
    rw [hup] at hd
    exact absurd hd (by decide)

def c2Store : Store :=
  ⟨[⟨1, "down", 500, 10, "", 2⟩, ⟨1, "down", 500, 10, "", 1⟩], [], 1⟩

theorem claim_C2_witness : ShouldAlert c2Store 1 2 = true :=
  (claim_C2 c2Store 1 2 (by decide)).1.mpr (by decide)

/-! ## C1: at most one open incident per endpoint -/

lemma shouldAlert_no_active (st : Store) (cid t : Int)
    (h : ShouldAlert st cid t = true) : GetActiveIncident st cid = none := by
  unfold ShouldAlert at h
  dsimp only at h
  by_cases h1 : (GetRecentResults st cid (if t < 1 then 2 else t)).length
      < (if t < 1 then 2 else t).toNat
  · rw [if_pos h1] at h
    exact absurd h (by simp)
  · rw [if_neg h1] at h
    by_cases h2 : ((GetRecentResults st cid (if t < 1 then 2 else t)).any
        fun r => decide (r.status = "up")) = true
    · rw [if_pos h2] at h
      exact absurd h (by simp)
    · rw [if_neg h2] at h
      exact Option.isNone_iff_eq_none.mp h

lemma active_none_open_nil (st : Store) (cid : Int)
    (h : GetActiveIncident st cid = none) : openIncidents st cid = [] := by
  unfold GetActiveIncident at h
  unfold openIncidents
  exact List.filter_eq_nil_iff.mpr (List.find?_eq_none.mp h)

lemma open_nil_active_none (st : Store) (cid : Int)
    (h : openIncidents st cid = []) : GetActiveIncident st cid = none := by
  unfold openIncidents at h
  unfold GetActiveIncident
  exact List.find?_eq_none.mpr (List.filter_eq_nil_iff.mp h)

/-- Closing rows can only shrink the set selected by a row filter that any
closed row fails. -/
lemma length_filter_map_le {α : Type} (f : α → α) (p : α → Bool) (l : List α)
    (h : ∀ x, p (f x) = true → p x = true) :
    ((l.map f).filter p).length ≤ (l.filter p).length := by
  induction l with
  | nil => simp
  | cons x xs ih =>
    simp only [List.map_cons, List.filter_cons]
    by_cases hx : p (f x) = true
    · rw [if_pos hx, if_pos (h x hx)]
      simpa using ih
    · rw [if_neg hx]
      by_cases hx' : p x = true
      · rw [if_pos hx']
        exact le_trans ih (Nat.le_succ _)
      · rw [if_neg hx']
        exact ih

lemma closeOne_open {cid : Int} (id endedAt : Int) (i : Incident)
    (h : ((closeOne id endedAt i).checkId = cid && (closeOne id endedAt i).endedAt.isNone)
          = true) :
    (i.checkId = cid && i.endedAt.isNone) = true := by
  unfold closeOne at h
  split at h
  · simp at h
  · exact h

lemma openIncidents_close_le (st : Store) (id endedAt cid : Int) :
    (openIncidents (CloseIncident st id endedAt) cid).length
      ≤ (openIncidents st cid).length := by
  unfold openIncidents CloseIncident
  exact length_filter_map_le _ _ _ (fun i => closeOne_open id endedAt i)

lemma openIncidents_create (st : Store) (cid startedAt : Int) (cause : String)
    (cid' : Int) :
    openIncidents (CreateIncident st cid startedAt cause).1 cid'
      = openIncidents st cid'
          ++ (if cid = cid' then [(CreateIncident st cid startedAt cause).2] else []) := by
  unfold openIncidents CreateIncident
  dsimp only
  rw [List.filter_append]
  by_cases h : cid = cid'
  · rw [if_pos h]
    simp [h]
  · rw [if_neg h]
    simp [h]

/-- One `ProcessResult` call preserves invariant I1 for every endpoint:
a new incident is only created behind the `ShouldAlert` gate, which insists
that no open incident exists, and the recovery branch only closes rows. -/
lemma processResult_preserves (st : Store) (check : Check)
    (response : CheckResponse) (cf now : Int) (h : AtMostOneOpen st) :
    AtMostOneOpen (ProcessResult st check response cf now).1 := by
  unfold ProcessResult
  dsimp only
  split
  · exact h
  · split
    · split
      · rename_i hSA
        intro cid
        rw [openIncidents_create]
        have hnone := shouldAlert_no_active _ _ _ hSA
        by_cases hcid : check.id = cid
        · subst hcid
          rw [active_none_open_nil _ _ hnone]
          simp
        · rw [if_neg hcid]
          simpa using h cid
      · exact h
    · split
      · split
        · intro cid
          exact le_trans (openIncidents_close_le _ _ _ _) (h cid)
        · exact h
      · exact h

/-- C1: through any sequence of verdicts threaded through the state machine
by the scheduler, every endpoint has at most one open incident at every
observation point (every prefix of the trace is itself a trace). -/
theorem claim_C1 (st : Store) (check : Check) (cf : Int)
    (inputs : List (CheckResponse × Int)) (h : AtMostOneOpen st) :
    AtMostOneOpen (runTrace st check cf inputs) := by
  induction inputs generalizing st with
  | nil => exact h
  | cons input rest ih =>
    exact ih _ (processResult_preserves _ _ _ _ _ h)

def c1Trace : List (CheckResponse × Int) :=
  [(⟨200, 5, none⟩, 1), (⟨500, 5, none⟩, 2), (⟨500, 5, none⟩, 3),
   (⟨500, 5, none⟩, 4), (⟨200, 5, none⟩, 5), (⟨500, 5, none⟩, 6),
   (⟨500, 5, none⟩, 7)]

theorem claim_C1_witness :
    (openIncidents (runTrace emptyStore ⟨1, 200, ""⟩ 2 c1Trace) 1).length ≤ 1 :=
  claim_C1 emptyStore ⟨1, 200, ""⟩ 2 c1Trace
    (fun cid => le_trans (List.length_filter_le _ _) (by decide)) 1

/-! ## C4: the recovery transition -/

lemma closeOne_id (id t : Int) (i : Incident) : (closeOne id t i).id = i.id := by
  unfold closeOne
  split <;> rfl

lemma find?_id_map_closeOne (l : List Incident) (id t tgt : Int) :
    (l.map (closeOne id t)).find? (fun i => i.id = tgt)
      = (l.find? (fun i => i.id = tgt)).map (closeOne id t) := by
  induction l with
  | nil => rfl
  | cons x xs ih =>
    by_cases hx : x.id = tgt
    · rw [List.map_cons, List.find?_cons_of_pos _ (by simp [closeOne_id, hx]),
        List.find?_cons_of_pos _ (by simp [hx])]
      rfl
    · rw [List.map_cons, List.find?_cons_of_neg _ (by simp [closeOne_id, hx]),
        List.find?_cons_of_neg _ (by simp [hx])]
      exact ih

lemma find?_id_of_mem_pairwise (l : List Incident) (inc : Incident)
    (hpw : l.Pairwise (fun a b => a.id ≠ b.id)) (hmem : inc ∈ l) :
    l.find? (fun i => i.id = inc.id) = some inc := by
  induction l with
  | nil => cases hmem
  | cons x xs ih =>
    rcases List.mem_cons.mp hmem with rfl | hmem'
    · exact List.find?_cons_of_pos _ (by simp)
    · have hne : x.id ≠ inc.id := (List.pairwise_cons.mp hpw).1 inc hmem'
      rw [List.find?_cons_of_neg _ (by simp [hne])]
      exact ih (List.pairwise_cons.mp hpw).2 hmem'

lemma eq_singleton_of_mem_length_le_one {α : Type} (l : List α) (a : α)
    (h1 : a ∈ l) (h2 : l.length ≤ 1) : l = [a] := by
  cases l with
  | nil => cases h1
  | cons x xs =>
    cases xs with
    | nil =>
      rcases List.mem_singleton.mp h1 with rfl
      rfl
    | cons y ys => simp at h2

/-- C4: on a down-to-up transition the engine persists the result and, when
an open incident exists, closes exactly that incident with `ended_at = now`
(duration = now − started_at), re-reads it and dispatches a recovery alert
carrying the re-read row, leaving no open incident behind; when no open
incident exists the result is still persisted and nothing else happens.
Hypotheses: the previous observed status is `down`, the verdict is `up`,
the store satisfies invariant I1, and incident row ids are unique (they are
primary keys). -/
theorem claim_C4 (st : Store) (check : Check) (response : CheckResponse)
    (cf now : Int)
    (hprev : check.status = "down")
    (hup : DetermineStatus response check.expectedStatus = "up")
    (hinv : AtMostOneOpen st)
    (huniq : st.incidents.Pairwise (fun a b => a.id ≠ b.id)) :
    (ProcessResult st check response cf now).1.results
      = mkResult check response "up" now :: st.results ∧
    (∀ inc, GetActiveIncident st check.id = some inc →
      (ProcessResult st check response cf now).1.incidents
          = st.incidents.map (closeOne inc.id now) ∧
      GetIncident (ProcessResult st check response cf now).1 inc.id
          = some { inc with endedAt := some now,
                            durationSeconds := now - inc.startedAt } ∧
      (ProcessResult st check response cf now).2
          = [AlertEvent.recovery
              (GetIncident (ProcessResult st check response cf now).1 inc.id)] ∧
      GetActiveIncident (ProcessResult st check response cf now).1 check.id
          = none) ∧
    (GetActiveIncident st check.id = none →
      (ProcessResult st check response cf now).1.incidents = st.incidents ∧
      (ProcessResult st check response cf now).2 = []) := by
  have hres : (ProcessResult st check response cf now).1.results
      = mkResult check response "up" now :: st.results := by
    rw [processResult_results, hup]
  have hstep : ProcessResult st check response cf now
      = (match GetActiveIncident st check.id with
         | some inc =>
           (CloseIncident
              (SaveResult st (mkResult check response "up" now)) inc.id now,
            [AlertEvent.recovery
              (GetIncident
                (CloseIncident
                  (SaveResult st (mkResult check response "up" now)) inc.id now)
                inc.id)])
         | none => (SaveResult st (mkResult check response "up" now), [])) := by
    unfold ProcessResult
    dsimp only
    rw [hup, hprev, if_neg (by decide), if_neg (by decide), if_pos (by decide)]
    rfl
  refine ⟨hres, ?_, ?_⟩
  · intro inc hact
    rw [hstep, hact]
    dsimp only
    have hp := List.find?_some hact
    have hmem := List.mem_of_find?_eq_some hact
    have hclosed : GetIncident
        (CloseIncident (SaveResult st (mkResult check response "up" now)) inc.id now)
        inc.id
        = some { inc with endedAt := some now,
                          durationSeconds := now - inc.startedAt } := by
      unfold GetIncident CloseIncident SaveResult
      dsimp only
      rw [find?_id_map_closeOne, find?_id_of_mem_pairwise _ _ huniq hmem]
      simp [closeOne]
    refine ⟨rfl, hclosed, by rw [hclosed], ?_⟩
    apply open_nil_active_none
    have hone : openIncidents st check.id = [inc] :=
      eq_singleton_of_mem_length_le_one _ _
        (List.mem_filter.mpr ⟨hmem, hp⟩) (hinv check.id)
    unfold openIncidents CloseIncident SaveResult
    dsimp only
    rw [List.filter_eq_nil_iff]
    intro j hj
    rcases List.mem_map.mp hj with ⟨y, hy, rfl⟩
    intro hopen
    have hpy := closeOne_open inc.id now y hopen
    have : y ∈ openIncidents st check.id := List.mem_filter.mpr ⟨hy, hpy⟩
    rw [hone] at this
    rcases List.mem_singleton.mp this with rfl
    unfold closeOne at hopen
    rw [if_pos rfl] at hopen
    simp at hopen
  · intro hact
    rw [hstep, hact]
    exact ⟨rfl, rfl⟩

def c4Store : Store :=
  ⟨[⟨1, "down", 500, 10, "", 1⟩], [⟨1, 1, 0, none, 0, "connection refused"⟩], 2⟩

theorem claim_C4_witness :
    GetActiveIncident (ProcessResult c4Store ⟨1, 200, "down"⟩ ⟨200, 5, none⟩ 2 10).1 1
      = none :=
  ((claim_C4 c4Store ⟨1, 200, "down"⟩ ⟨200, 5, none⟩ 2 10 rfl (by decide)
      (fun cid => le_trans (List.length_filter_le _ _) (by decide))
      (by decide)).2.1
    ⟨1, 1, 0, none, 0, "connection refused"⟩ rfl).2.2.2

/-! ## C8: the probe executor's retry

`HTTPChecker.Execute` (internal/checker/http.go lines 663-673) runs
`doRequest` once and, when the outcome is not a success and the retry delay
is positive, sleeps for the delay and runs `doRequest` once more, returning
that second outcome.  `doRequest` measures elapsed wall time around its own
HTTP round-trip only — `start := time.Now()` is taken after the retry
sleep — so each attempt's response carries just that attempt's elapsed
milliseconds.  The two `doRequest` outcomes are supplied as parameters. -/

def Execute (retryDelay expectedStatus : Int) (attempt1 attempt2 : CheckResponse) :
    CheckResponse :=
  if attempt1.IsSuccess expectedStatus = false ∧ 0 < retryDelay then attempt2
  else attempt1

/-- C8 counterexample: with a 100 ms retry delay, a first attempt that fails
immediately (connection refused) and a retried attempt that succeeds with
status 200 in 5 ms, the stored verdict is `up` but the recorded response
time is 5 ms, below the retry delay — the sleep between the attempts is not
part of the measured elapsed time. -/
theorem claim_C8_counterexample :
    DetermineStatus
        (Execute 100 200 ⟨0, 0, some "connection refused"⟩ ⟨200, 5, none⟩) 200
      = "up" ∧
    (Execute 100 200 ⟨0, 0, some "connection refused"⟩ ⟨200, 5, none⟩).responseTimeMs
      = 5 ∧
    ¬ (100 ≤ (Execute 100 200 ⟨0, 0, some "connection refused"⟩
                ⟨200, 5, none⟩).responseTimeMs) := by
  refine ⟨by decide, by decide, by decide⟩

/-- C8 (amended): when the first attempt fails and the single retried
attempt succeeds with the expected status, exactly one result is stored and
its verdict is `up`; its recorded response time is the elapsed time of the
final (retried) attempt alone — the retry delay sleep is not included, so
the stored time need not reach the delay. -/
theorem claim_C8 (retryDelay expected : Int) (a1 a2 : CheckResponse)
    (hfail : a1.IsSuccess expected = false) (hpos : 0 < retryDelay)
    (hsucc : a2.IsSuccess expected = true) :
    Execute retryDelay expected a1 a2 = a2 ∧
    DetermineStatus (Execute retryDelay expected a1 a2) expected = "up" ∧
    (Execute retryDelay expected a1 a2).responseTimeMs = a2.responseTimeMs ∧
    (∀ (st : Store) (check : Check) (cf now : Int),
      (ProcessResult st check (Execute retryDelay expected a1 a2) cf now).1.results.length
        = st.results.length + 1) ∧
    (∀ (st : Store) (check : Check) (cf now : Int),
      check.expectedStatus = expected →
      GetLatestResult
          (ProcessResult st check (Execute retryDelay expected a1 a2) cf now).1
          check.id
        = some (mkResult check (Execute retryDelay expected a1 a2) "up" now)) := by
  have hexec : Execute retryDelay expected a1 a2 = a2 := by
    unfold Execute
    rw [if_pos ⟨hfail, hpos⟩]
  have hup2 : DetermineStatus a2 expected = "up" := (isSuccess_iff_up a2 expected).mp hsucc
  refine ⟨hexec, by rw [hexec]; exact hup2, by rw [hexec], ?_, ?_⟩
  · intro st check cf now
    rw [processResult_results]
    rfl
  · intro st check cf now hexp
    have hupc : DetermineStatus (Execute retryDelay expected a1 a2) check.expectedStatus
        = "up" := by
      rw [hexp, hexec]
      exact hup2
    unfold GetLatestResult resultsFor
    have hr := processResult_results st check (Execute retryDelay expected a1 a2) cf now
    rw [hr, hupc, List.filter_cons]
    rw [if_pos (by simp [mkResult])]
    rfl

theorem claim_C8_witness :
    Execute 100 200 ⟨0, 0, some "connection refused"⟩ ⟨200, 5, none⟩
      = (⟨200, 5, none⟩ : CheckResponse) :=
  (claim_C8 100 200 ⟨0, 0, some "connection refused"⟩ ⟨200, 5, none⟩
    (by decide) (by decide) (by decide)).1

/-! ## The alert dispatcher (internal/alerter/manager.go)

The manager's three channel senders are modelled as `Option (Option
String)`: `none` means the channel is not configured, `some none` a
configured sender whose `Send` succeeds, `some (some msg)` a configured
sender whose `Send` fails with error `msg`.  Times are in abstract
milliseconds, so the cooldown duration is `cooldownMinutes * 60000`.  The
storage lookup `GetLastAlertForIncident` used by the cooldown check is a
parameter of type `Except Unit (Option AlertLog)` so that the storage-error
path is expressible. -/

structure Manager where
  cooldownMinutes : Int
  email : Option (Option String)
  slack : Option (Option String)
  discord : Option (Option String)
deriving DecidableEq, Repr

/-- Mirrors `alerter.Alert` (the fields the dispatch path reads). -/
structure Alert where
  alertType : String
  incident : Option Incident
  errorText : String
deriving DecidableEq, Repr

/-- `SQLiteStorage.GetLastAlertForIncident`: newest `alert_log` row for
`(incident_id, channel)` (rows kept newest-first), `none` when no row
matches. -/
def GetLastAlertForIncident (log : List AlertLog) (incidentId : Int)
    (channel : String) : Option AlertLog :=
  (log.filter (fun a => a.incidentId = incidentId && a.channel = channel)).head?

/-- `Manager.shouldSendAlert` (internal/alerter/manager.go lines 131-152):
a nil incident bypasses the cooldown; a failed storage lookup allows the
alert; otherwise the alert is suppressed exactly when the last `email`
delivery row exists, succeeded, and lies within the cooldown window. -/
def shouldSendAlert (m : Manager) (alert : Alert)
    (lookup : Except Unit (Option AlertLog)) (now : Int) : Bool :=
  match alert.incident with
  | none => true
  | some _ =>
    let cooldown := m.cooldownMinutes * 60000
    match lookup with
    | Except.error _ => true
    | Except.ok lastAlert =>
      match lastAlert with
      | some la =>
        if la.success = true ∧ now - la.sentAt < cooldown then false else true
      | none => true

/-- `Manager.logAlert` (internal/alerter/manager.go lines 154-169): returns
without writing when the alert has no incident, otherwise appends one
delivery row. -/
def logAlert (alert : Alert) (channel : String) (success : Bool)
    (errMsg : String) (log : List AlertLog) (now : Int) : List AlertLog :=
  match alert.incident with
  | none => log
  | some inc => ⟨inc.id, channel, now, success, errMsg⟩ :: log

/-- The observable outcome of one `sendAlert` call: which channel senders
were invoked (in order), the alert log afterwards, and the returned error. -/
structure SendOutcome where
  invoked : List String
  log : List AlertLog
  lastErr : Option String
deriving DecidableEq, Repr

/-- One `if m.X != nil { ... }` block of `Manager.sendAlert`: invoke the
sender when configured, log the attempt, track the last error. -/
def sendStep (alert : Alert) (now : Int) (channel : String)
    (sender : Option (Option String)) (acc : SendOutcome) : SendOutcome :=
  match sender with
  | none => acc
  | some res =>
    match res with
    | none =>
      { invoked := acc.invoked ++ [channel],
        log := logAlert alert channel true "" acc.log now,
        lastErr := acc.lastErr }
    | some msg =>
      { invoked := acc.invoked ++ [channel],
        log := logAlert alert channel false msg acc.log now,
        lastErr := some msg }

/-- `Manager.sendAlert` (internal/alerter/manager.go lines 90-129): drop
silently when the cooldown check refuses, otherwise run the three channel
blocks in order (email, slack, discord). -/
def sendAlert (m : Manager) (log : List AlertLog) (alert : Alert)
    (lookup : Except Unit (Option AlertLog)) (now : Int) : SendOutcome :=
  if shouldSendAlert m alert lookup now = false then
    { invoked := [], log := log, lastErr := none }
  else
    sendStep alert now "discord" m.discord
      (sendStep alert now "slack" m.slack
        (sendStep alert now "email" m.email
          { invoked := [], log := log, lastErr := none }))

/-- The channels with a configured sender, in dispatch order. -/
def enabledChannels (m : Manager) : List String :=
  (if m.email.isSome then ["email"] else [])
    ++ (if m.slack.isSome then ["slack"] else [])
    ++ (if m.discord.isSome then ["discord"] else [])

lemma sendSteps_invoked (m : Manager) (alert : Alert) (now : Int)
    (log : List AlertLog) :
    (sendStep alert now "discord" m.discord
      (sendStep alert now "slack" m.slack
        (sendStep alert now "email" m.email ⟨[], log, none⟩))).invoked
      = enabledChannels m := by
  rcases m with ⟨cd, em, sl, di⟩
  rcases em with _ | (_ | e) <;> rcases sl with _ | (_ | s) <;>
    rcases di with _ | (_ | d) <;> simp [sendStep, enabledChannels]

lemma sendSteps_log_of_none (m : Manager) (alert : Alert) (now : Int)
    (log : List AlertLog) (h : alert.incident = none) :
    (sendStep alert now "discord" m.discord
      (sendStep alert now "slack" m.slack
        (sendStep alert now "email" m.email ⟨[], log, none⟩))).log = log := by
  rcases m with ⟨cd, em, sl, di⟩
  rcases em with _ | (_ | e) <;> rcases sl with _ | (_ | s) <;>
    rcases di with _ | (_ | d) <;> simp [sendStep, logAlert, h]

lemma shouldSend_of_none (m : Manager) (alert : Alert)
    (lookup : Except Unit (Option AlertLog)) (now : Int)
    (h : alert.incident = none) : shouldSendAlert m alert lookup now = true := by
  unfold shouldSendAlert
  rw [h]

lemma shouldSend_of_error (m : Manager) (alert : Alert) (now : Int) :
    shouldSendAlert m alert (Except.error ()) now = true := by
  unfold shouldSendAlert
  cases alert.incident <;> rfl

lemma shouldSend_ok_false_iff (m : Manager) (alert : Alert) (inc : Incident)
    (la? : Option AlertLog) (now : Int) (hinc : alert.incident = some inc) :
    (shouldSendAlert m alert (Except.ok la?) now = false ↔
      ∃ la, la? = some la ∧ la.success = true ∧
        now - la.sentAt < m.cooldownMinutes * 60000) := by
  unfold shouldSendAlert
  rw [hinc]
  dsimp only
  cases la? with
  | none => simp
  | some la =>
    dsimp only
    constructor
    · intro hf
      by_cases h : la.success = true ∧ now - la.sentAt < m.cooldownMinutes * 60000
      · exact ⟨la, rfl, h.1, h.2⟩
      · rw [if_neg h] at hf
        simp at hf
    · rintro ⟨la', heq, hs, hc⟩
      cases heq
      rw [if_pos ⟨hs, hc⟩]

/-- C3: with a non-nil incident, a dispatch call is dropped (no channel
sender invoked, nil returned, log untouched) exactly when the most recent
`email` delivery row for the incident exists, succeeded, and lies within
the cooldown window; in particular a failed prior delivery never
suppresses. A nil incident always bypasses the cooldown.  The hypothesis
`m.email.isSome` states that the email channel is configured, so a
non-dropped call demonstrably invokes a sender. -/
theorem claim_C3 (m : Manager) (log : List AlertLog) (alert : Alert)
    (inc : Incident) (now : Int)
    (hinc : alert.incident = some inc) (hemail : m.email.isSome = true) :
    (((sendAlert m log alert
          (Except.ok (GetLastAlertForIncident log inc.id "email")) now).invoked
          = []
        ∧ (sendAlert m log alert
            (Except.ok (GetLastAlertForIncident log inc.id "email")) now).lastErr
          = none
        ∧ (sendAlert m log alert
            (Except.ok (GetLastAlertForIncident log inc.id "email")) now).log
          = log)
      ↔ (∃ la, GetLastAlertForIncident log inc.id "email" = some la ∧
            la.success = true ∧ now - la.sentAt < m.cooldownMinutes * 60000)) ∧
    (∀ (a2 : Alert) (lookup : Except Unit (Option AlertLog)),
        a2.incident = none → shouldSendAlert m a2 lookup now = true) := by
  constructor
  · constructor
    · rintro ⟨h1, -, -⟩
      by_cases hgate : shouldSendAlert m alert
          (Except.ok (GetLastAlertForIncident log inc.id "email")) now = false
      · exact (shouldSend_ok_false_iff m alert inc _ now hinc).mp hgate
      · exfalso
        unfold sendAlert at h1
        rw [if_neg hgate, sendSteps_invoked] at h1
        unfold enabledChannels at h1
        rw [if_pos hemail] at h1
        simp at h1
    · intro hcond
      have hgate := (shouldSend_ok_false_iff m alert inc _ now hinc).mpr hcond
      unfold sendAlert
      rw [if_pos hgate]
      exact ⟨rfl, rfl, rfl⟩
  · intro a2 lookup h
    exact shouldSend_of_none m a2 lookup now h

theorem claim_C3_witness :
    (sendAlert ⟨5, some none, none, none⟩ [⟨7, "email", 0, true, ""⟩]
        ⟨"down", some ⟨7, 1, 0, none, 0, ""⟩, "x"⟩
        (Except.ok (GetLastAlertForIncident [⟨7, "email", 0, true, ""⟩] 7 "email"))
        1000).invoked
      = [] :=
  ((claim_C3 ⟨5, some none, none, none⟩ [⟨7, "email", 0, true, ""⟩]
      ⟨"down", some ⟨7, 1, 0, none, 0, ""⟩, "x"⟩ ⟨7, 1, 0, none, 0, ""⟩ 1000
      rfl rfl).1.mpr
    ⟨⟨7, "email", 0, true, ""⟩, rfl, rfl, by decide⟩).1

/-- C9: the cooldown check is fail-open: when the storage lookup of the
last delivery errors, `shouldSendAlert` returns true and the alert goes to
every enabled channel — a storage failure never suppresses an alert. -/
theorem claim_C9 (m : Manager) (log : List AlertLog) (alert : Alert) (now : Int) :
    shouldSendAlert m alert (Except.error ()) now = true ∧
    (sendAlert m log alert (Except.error ()) now).invoked = enabledChannels m := by
  refine ⟨shouldSend_of_error m alert now, ?_⟩
  unfold sendAlert
  rw [if_neg (by rw [shouldSend_of_error m alert now]; simp)]
  exact sendSteps_invoked m alert now log

/-- C10: a dispatch whose alert carries no incident still invokes every
enabled channel sender, but `logAlert` writes nothing, so the alert-delivery
log comes out unchanged. -/
theorem claim_C10 (m : Manager) (log : List AlertLog) (ty errText : String)
    (lookup : Except Unit (Option AlertLog)) (now : Int) :
    (sendAlert m log ⟨ty, none, errText⟩ lookup now).invoked = enabledChannels m ∧
    (sendAlert m log ⟨ty, none, errText⟩ lookup now).log = log := by
  have hgate : shouldSendAlert m ⟨ty, none, errText⟩ lookup now = true :=
    shouldSend_of_none _ _ _ _ rfl
  unfold sendAlert
  rw [if_neg (by rw [hgate]; simp)]
  exact ⟨sendSteps_invoked m _ now log, sendSteps_log_of_none m _ now log rfl⟩
